import Mathlib

/-!
Verification of the Pumpkin connection reactor, its client/player promotion
state machine, the per-connection keep-alive monitor, and the plugin loader,
as implemented in `pumpkin/src/main.rs` and
`pumpkin-plugins/src/plugin_loader.rs`.

The reactor's registries (`clients: HashMap<usize, Arc<Client>>`,
`players: HashMap<usize, Arc<Player>>`) are embedded as finite partial maps
`Nat → Option ClientData`; the OS poll registry is embedded as the set of
registered tokens `Nat → Bool`.  A `Client` behind an `Arc` exposes mutation
only through its atomic flags (`closed`, `make_player`), so the opaque
external calls `Client::poll` and `process_packets` are embedded as arbitrary
functions on those flags, passed as parameters to the dispatch step.
-/

namespace Pumpkin

/-- Reserved listener token: `const SERVER: Token = Token(0)` (main.rs:121). -/
def SERVER : Nat := 0

/-- The shared atomic flags of a `Client` that packet processing and polling
may mutate through the `Arc`: `closed` and `make_player` (main.rs:271-299). -/
structure ClientFlags where
  closed : Bool
  make_player : Bool
  deriving DecidableEq, Repr

/-- The per-connection data the reactor stores in its registries: the
immutable connection id (`client.id`) and the shared flags. -/
structure ClientData where
  id : Nat
  flags : ClientFlags
  deriving DecidableEq, Repr

/-- The reactor-owned state: the token counter `unique_id`, the `clients`
and `players` registries, and the poll registry of registered sockets. -/
structure ReactorState where
  counter : Nat
  clients : Nat → Option ClientData
  players : Nat → Option ClientData
  registered : Nat → Bool

/-- Pointwise update of a finite map, the semantics of `HashMap::insert`
(replacing) and, with value `none`, of `HashMap::remove`. -/
def fupdate {α : Type} (m : Nat → α) (t : Nat) (v : α) : Nat → α :=
  fun u => if u = t then v else m u

/-- One accepted connection (main.rs:222-264): increment `unique_id`, take
the new value as the token, register the socket, insert a fresh `Client`
into `clients`.  Returns the new state and the assigned token. -/
def acceptOne (st : ReactorState) : ReactorState × Nat :=
  let id := st.counter + 1
  ({ counter := id
     clients := fupdate st.clients id (some ⟨id, ⟨false, false⟩⟩)
     players := st.players
     registered := fupdate st.registered id true }, id)

/-- The player half of a dispatch tick (main.rs:269-285): `poll` the embedded
client, load `closed` once, run `process_packets` only if not closed, and
remove + deregister only if the loaded `closed` was true.  `pollP` and
`procP` are the opaque flag effects of `Client::poll` and
`Player::process_packets`. -/
def dispatchPlayer (pollP procP : ClientFlags → ClientFlags) (t : Nat)
    (st : ReactorState) : ReactorState :=
  match st.players t with
  | none => st
  | some p =>
    let f1 := pollP p.flags
    let f2 := if f1.closed then f1 else procP f1
    if f1.closed then
      { st with players := fupdate st.players t none
                registered := fupdate st.registered t false }
    else
      { st with players := fupdate st.players t (some { p with flags := f2 }) }

/-- The client half of a dispatch tick (main.rs:288-315): `poll`, load
`closed`, run `process_packets` if not closed, load `make_player` after
processing; if `closed` then remove + deregister (teardown), else if
`make_player` then remove from `clients` and insert the promoted player
into `players` at key `client.id`. -/
def dispatchClient (pollC procC : ClientFlags → ClientFlags) (t : Nat)
    (st : ReactorState) : ReactorState :=
  match st.clients t with
  | none => st
  | some c =>
    let f1 := pollC c.flags
    let f2 := if f1.closed then f1 else procC f1
    let c2 : ClientData := { c with flags := f2 }
    if f1.closed || f2.make_player then
      if f1.closed then
        { st with clients := fupdate st.clients t none
                  registered := fupdate st.registered t false }
      else
        { st with clients := fupdate st.clients t none
                  players := fupdate st.players c2.id (some c2) }
    else
      { st with clients := fupdate st.clients t (some c2) }

/-- A full dispatch tick for a non-listener token (main.rs:267-316): the
player branch runs first, then the client branch, on the same token. -/
def dispatchTick (pollP procP pollC procC : ClientFlags → ClientFlags)
    (t : Nat) (st : ReactorState) : ReactorState :=
  dispatchClient pollC procC t (dispatchPlayer pollP procP t st)

/-- One observable step of the reactor loop: either one accepted connection,
or one dispatch tick on a token with the (arbitrary) flag effects of the
opaque poll/process calls of that tick. -/
inductive Step where
  | accept : Step
  | dispatch (pollP procP pollC procC : ClientFlags → ClientFlags)
      (t : Nat) : Step

/-- Apply one reactor step to the reactor state. -/
def applyStep : Step → ReactorState → ReactorState
  | Step.accept, st => (acceptOne st).1
  | Step.dispatch pP prP pC prC t, st => dispatchTick pP prP pC prC t st

/-- Run a sequence of reactor steps; the states between steps are the
observable tick boundaries of the event loop. -/
def run : List Step → ReactorState → ReactorState
  | [], st => st
  | s :: rest, st => run rest (applyStep s st)

/-- The reactor state right after startup (main.rs:136-152): empty
registries, only the listener socket registered, and the token counter
`unique_id` seeded at `SERVER.0 + 1` (main.rs:140). -/
def initState : ReactorState :=
  { counter := SERVER + 1
    clients := fun _ => none
    players := fun _ => none
    registered := fun u => u == SERVER }

/-- A step promotes token `t` when `t` enters the `players` registry
across that step. -/
def promotes (s : Step) (st : ReactorState) (t : Nat) : Bool :=
  !(st.players t).isSome && ((applyStep s st).players t).isSome

/-- Number of steps of a run that promote token `t`. -/
def promotionsFor (t : Nat) : List Step → ReactorState → Nat
  | [], _ => 0
  | s :: rest, st =>
    (if promotes s st t then 1 else 0) + promotionsFor t rest (applyStep s st)

/-- Accept `k` connections in a row, collecting the assigned tokens in
order (the inner accept loop of main.rs:195-265 as seen across `k`
successful `accept` calls). -/
def acceptMany : Nat → ReactorState → ReactorState × List Nat
  | 0, st => (st, [])
  | Nat.succ k, st =>
    let p := acceptOne st
    let q := acceptMany k p.1
    (q.1, p.2 :: q.2)

/-- Result of one `listener.accept()` call (main.rs:198-212): a connection,
a `WouldBlock` error, or any other I/O error (identified by its kind). -/
inductive AcceptEvent where
  | conn : AcceptEvent
  | wouldBlock : AcceptEvent
  | fatal (e : Nat) : AcceptEvent
  deriving DecidableEq, Repr

/-- The inner accept-drain loop (main.rs:195-265) over the sequence of
results the successive `accept` calls return: a connection is accepted and
registered and the loop continues; `WouldBlock` breaks out of the loop
normally; any other error is returned, terminating the reactor. -/
def acceptDrain : List AcceptEvent → ReactorState → Except Nat ReactorState
  | [], st => Except.ok st
  | AcceptEvent.wouldBlock :: _, st => Except.ok st
  | AcceptEvent.fatal e :: _, _ => Except.error e
  | AcceptEvent.conn :: rest, st => acceptDrain rest (acceptOne st).1

/-- The tokens a run of `k` accepts assigns when the counter starts at `c`:
`c+1, c+2, ..., c+k`. -/
def assignedTokens : Nat → Nat → List Nat
  | _, 0 => []
  | c, k + 1 => (c + 1) :: assignedTokens (c + 1) k

/-- The reactor invariant: registry key sets are disjoint, every client is
stored under its own id, and every registered key is at most the token
counter. -/
structure Inv (st : ReactorState) : Prop where
  disjoint : ∀ t, (st.clients t).isSome → (st.players t).isSome → False
  idc : ∀ t c, st.clients t = some c → c.id = t
  bound : ∀ t, ((st.clients t).isSome ∨ (st.players t).isSome) → t ≤ st.counter

/-- Protocol connection state (external `pumpkin_protocol::ConnectionState`,
consumed read-only); the core only distinguishes `Play` from the rest. -/
inductive ConnState where
  | handShaking : ConnState
  | status : ConnState
  | login : ConnState
  | transfer : ConnState
  | play : ConnState
  deriving DecidableEq, Repr

/-- The client state the keep-alive monitor reads and writes
(main.rs:236-262): the shared connection state, the `last_alive_received`
timestamp (an instant, in seconds), and the shared `closed` flag. -/
structure MonitorClient where
  connection_state : ConnState
  last_alive_received : Nat
  closed : Bool
  deriving DecidableEq, Repr

/-- Modelled from the spec: `Client::kick` lives in the `client` module,
which is not among the given source files; per the spec it marks the
connection closed (with a disconnect reason). -/
def kick (c : MonitorClient) : MonitorClient :=
  { c with closed := true }

/-- Outcome of one keep-alive monitor tick: `timedOut` is the kick-and-break
path; `ticked` is a completed tick carrying the updated client, the rest of
the reply queue and the challenge id sent (if any); `blocked` is a tick
stuck in `receiver.recv().await` on an empty reply queue after sending the
recorded challenge. -/
inductive MonitorOutcome where
  | timedOut (c : MonitorClient) (reason : String) : MonitorOutcome
  | ticked (c : MonitorClient) (queue : List Int) (sent : Option Int) :
      MonitorOutcome
  | blocked (c : MonitorClient) (sent : Int) : MonitorOutcome
  deriving DecidableEq, Repr

/-- The keep-alive deadline, seconds (`Duration::from_secs(15)`,
main.rs:243). -/
def KEEP_ALIVE_TIMEOUT : Nat := 15

/-- One tick of the keep-alive monitor task (main.rs:238-261).  `now` is
the instant taken at the top of the tick, `random` the value
`rand::random::<i64>()` returns this tick, `queue` the pending contents of
the keep-alive reply channel.  Outside `Play`, the timestamp is refreshed.
In `Play`, a deadline miss kicks and breaks; otherwise the challenge is
sent and one reply is awaited: equal id refreshes the timestamp, a
different id leaves it unchanged, an empty queue leaves the task blocked
in `recv().await`. -/
def monitorTick (now : Nat) (random : Int) (queue : List Int)
    (c : MonitorClient) : MonitorOutcome :=
  if c.connection_state = ConnState.play then
    if KEEP_ALIVE_TIMEOUT ≤ now - c.last_alive_received then
      MonitorOutcome.timedOut (kick c) "No keep alive received"
    else
      match queue with
      | [] => MonitorOutcome.blocked c random
      | id :: restq =>
        if id = random then
          MonitorOutcome.ticked { c with last_alive_received := now } restq
            (some random)
        else
          MonitorOutcome.ticked c restq (some random)
  else
    MonitorOutcome.ticked { c with last_alive_received := now } queue none

/-- Whether a monitor tick ran to completion without blocking and without
terminating the task. -/
def completesTick : MonitorOutcome → Bool
  | MonitorOutcome.ticked _ _ _ => true
  | _ => false

/-- The client state an outcome leaves behind. -/
def outcomeClient : MonitorOutcome → MonitorClient
  | MonitorOutcome.timedOut c _ => c
  | MonitorOutcome.ticked c _ _ => c
  | MonitorOutcome.blocked c _ => c

/-- The inputs one monitor tick consumes: the instant at the top of the
tick, the random challenge, the pending reply-channel contents, and the
connection state as packet processing has left it at that point. -/
structure TickInput where
  now : Nat
  challenge : Int
  queue : List Int
  state : ConnState
  deriving Repr

/-- Run the monitor over a sequence of tick inputs.  Returns the final
client state and whether the run ended in the keep-alive-timeout kick.  A
blocked tick ends the run (still no timeout). -/
def runMonitor : MonitorClient → List TickInput → MonitorClient × Bool
  | c, [] => (c, false)
  | c, i :: rest =>
    match monitorTick i.now i.challenge i.queue
        { c with connection_state := i.state } with
    | MonitorOutcome.timedOut c' _ => (c', true)
    | MonitorOutcome.ticked c' _ _ => runMonitor c' rest
    | MonitorOutcome.blocked c' _ => (c', false)

/-- Rust `Path::extension` restricted to a final path component: the
portion of the file name after the last `.`, none when there is no `.`
counting from after any leading `.`.  Helper: the characters after the
last `.` of the list, if any. -/
def afterLastDot : List Char → Option (List Char)
  | [] => none
  | c :: rest =>
    match afterLastDot rest with
    | some s => some s
    | none => if c = '.' then some rest else none

/-- Rust `Path::extension` of a file name: `none` for an empty name or a
name whose only `.` is the leading character; otherwise the portion after
the final `.`. -/
def extension (name : String) : Option String :=
  match name.data with
  | [] => none
  | c0 :: rest =>
    if c0 = '.' then (afterLastDot rest).map (fun cs => String.mk cs)
    else (afterLastDot (c0 :: rest)).map (fun cs => String.mk cs)

/-- `PluginLoader::is_valid_plugin` (plugin_loader.rs:51-59): true exactly
when the path has an extension equal to `so`, `dll`, `dylib` or
`plugin`. -/
def is_valid_plugin (name : String) : Bool :=
  match extension name with
  | some ext => ext == "so" || ext == "dll" || ext == "dylib" || ext == "plugin"
  | none => false

/-- The scan loop of `PluginLoader::load_plugins_from_directory`
(plugin_loader.rs:40-48) over the directory entries: the files attempted as
plugin loads are exactly the entries passing `is_valid_plugin`. -/
def load_plugins_from_directory (entries : List String) : List String :=
  entries.filter (fun e => is_valid_plugin e)

/-- Identity flag effect: a poll/process call that changes no flag. -/
def idEff : ClientFlags → ClientFlags := fun f => f

/-- A packet-processing effect that closes the connection during the tick. -/
def closeProc : ClientFlags → ClientFlags := fun f => { f with closed := true }

/-- Fixture: a promoted player under token 5, not closed. -/
def cexPlayer : ClientData := ⟨5, ⟨false, false⟩⟩

/-- Fixture: a reactor state holding only `cexPlayer` in `players`. -/
def cexSt : ReactorState :=
  { counter := 5
    clients := fun _ => none
    players := fun u => if u = 5 then some cexPlayer else none
    registered := fun u => u == 5 || u == SERVER }

/-- Fixture: a live-session monitor client, last refreshed at instant 0. -/
def cexMonitor : MonitorClient := ⟨ConnState.play, 0, false⟩

/-- Fixture: a reactor state holding one fresh client under token 2. -/
def cwSt : ReactorState :=
  { counter := 2
    clients := fun u => if u = 2 then some ⟨2, ⟨false, false⟩⟩ else none
    players := fun _ => none
    registered := fun u => u == 2 || u == SERVER }

/-- Fixture: a poll effect after which both `closed` and `make_player`
read true. -/
def bothEff : ClientFlags → ClientFlags := fun _ => ⟨true, true⟩

theorem acceptOne_counter (st : ReactorState) :
    (acceptOne st).1.counter = st.counter + 1 := rfl

theorem acceptOne_clients (st : ReactorState) :
    (acceptOne st).1.clients =
      fupdate st.clients (st.counter + 1)
        (some ⟨st.counter + 1, ⟨false, false⟩⟩) := rfl

theorem acceptOne_players (st : ReactorState) :
    (acceptOne st).1.players = st.players := rfl

theorem acceptOne_registered (st : ReactorState) :
    (acceptOne st).1.registered =
      fupdate st.registered (st.counter + 1) true := rfl

theorem acceptOne_token (st : ReactorState) :
    (acceptOne st).2 = st.counter + 1 := rfl

theorem acceptMany_succ (k : Nat) (st : ReactorState) :
    acceptMany (k + 1) st =
      ((acceptMany k (acceptOne st).1).1,
        (acceptOne st).2 :: (acceptMany k (acceptOne st).1).2) := rfl

theorem fupdate_same {α : Type} (m : Nat → α) (t : Nat) (v : α) :
    fupdate m t v t = v := by
  simp [fupdate]

theorem fupdate_other {α : Type} (m : Nat → α) (t u : Nat) (v : α)
    (h : u ≠ t) : fupdate m t v u = m u := by
  simp [fupdate, h]

/-- C1: on a dispatch tick for a token present in `clients`, when the
observed `closed` flag (loaded right after the client's poll) and the
observed `make_player` flag are both true, teardown wins: the token is
removed from `clients`, its socket is deregistered, and the `players`
registry is untouched — no Player is constructed or inserted. -/
theorem c1_teardown_precedence (pP prP pC prC : ClientFlags → ClientFlags)
    (t : Nat) (st : ReactorState) (c : ClientData)
    (hc : st.clients t = some c) (hp : st.players t = none)
    (hclosed : (pC c.flags).closed = true)
    (_hmk : (pC c.flags).make_player = true) :
    (dispatchTick pP prP pC prC t st).clients t = none ∧
    (dispatchTick pP prP pC prC t st).registered t = false ∧
    (dispatchTick pP prP pC prC t st).players = st.players := by
  refine ⟨?_, ?_, ?_⟩ <;>
    simp [dispatchTick, dispatchPlayer, dispatchClient, hp, hc, hclosed,
      fupdate]

/-- Witness for C1 at a concrete state: token 2 holds a fresh client whose
poll observes both flags true; the tick removes and deregisters it and
leaves `players` untouched. -/
theorem c1_teardown_precedence_witness :
    (dispatchTick idEff idEff bothEff idEff 2 cwSt).clients 2 = none ∧
    (dispatchTick idEff idEff bothEff idEff 2 cwSt).registered 2 = false ∧
    (dispatchTick idEff idEff bothEff idEff 2 cwSt).players = cwSt.players :=
  c1_teardown_precedence idEff idEff bothEff idEff 2 cwSt ⟨2, ⟨false, false⟩⟩
    (by decide) (by decide) (by decide) (by decide)

/-- C2 counterexample: the player branch loads `closed` before
`process_packets` runs (main.rs:271-277), so a closure raised during this
tick's packet processing does not tear the player down in the same tick:
with a processing effect that sets `closed`, the player is still present in
`players` (with `closed = true` in its flags) and its socket is still
registered after the tick. -/
theorem c2_closed_read_counterexample :
    (dispatchTick idEff closeProc idEff idEff 5 cexSt).players 5 =
      some ⟨5, ⟨true, false⟩⟩ ∧
    (dispatchTick idEff closeProc idEff idEff 5 cexSt).registered 5 = true :=
  ⟨rfl, rfl⟩

/-- C2 amended: on a dispatch tick for a token present in `players`, the
`closed` flag deciding teardown is loaded after the embedded client's poll
but before the packet-processing step; a closure observed at that load
causes same-tick removal and deregistration, while a closure set during
this tick's packet processing leaves the player registered until a later
tick. -/
theorem c2_closed_read_amended (pP prP pC prC : ClientFlags → ClientFlags)
    (t : Nat) (st : ReactorState) (p : ClientData)
    (hp : st.players t = some p) (hc : st.clients t = none) :
    ((pP p.flags).closed = true →
      (dispatchTick pP prP pC prC t st).players t = none ∧
      (dispatchTick pP prP pC prC t st).registered t = false) ∧
    ((pP p.flags).closed = false →
      (dispatchTick pP prP pC prC t st).players t =
        some { p with flags := prP (pP p.flags) } ∧
      (dispatchTick pP prP pC prC t st).registered t = st.registered t) := by
  constructor <;> intro h <;>
    simp [dispatchTick, dispatchPlayer, dispatchClient, hp, hc, h, fupdate]

/-- Witness for C2 amended at the concrete fixture state: the player under
token 5 whose processing closes the connection stays registered this tick. -/
theorem c2_closed_read_amended_witness :
    (((idEff : ClientFlags → ClientFlags) cexPlayer.flags).closed = true →
      (dispatchTick idEff closeProc idEff idEff 5 cexSt).players 5 = none ∧
      (dispatchTick idEff closeProc idEff idEff 5 cexSt).registered 5 =
        false) ∧
    (((idEff : ClientFlags → ClientFlags) cexPlayer.flags).closed = false →
      (dispatchTick idEff closeProc idEff idEff 5 cexSt).players 5 =
        some { cexPlayer with flags := closeProc (idEff cexPlayer.flags) } ∧
      (dispatchTick idEff closeProc idEff idEff 5 cexSt).registered 5 =
        cexSt.registered 5) :=
  c2_closed_read_amended idEff closeProc idEff idEff 5 cexSt cexPlayer
    (by decide) (by decide)

/-- C10: a dispatch tick on a token absent from both registries changes
nothing: the whole reactor state is returned unchanged. -/
theorem c10_unknown_token_noop (pP prP pC prC : ClientFlags → ClientFlags)
    (t : Nat) (st : ReactorState) (hc : st.clients t = none)
    (hp : st.players t = none) :
    dispatchTick pP prP pC prC t st = st := by
  simp [dispatchTick, dispatchPlayer, dispatchClient, hp, hc]

/-- Witness for C10: dispatching token 7 (absent everywhere) on the fixture
state is the identity. -/
theorem c10_unknown_token_noop_witness :
    dispatchTick idEff idEff idEff idEff 7 cexSt = cexSt :=
  c10_unknown_token_noop idEff idEff idEff idEff 7 cexSt (by decide)
    (by decide)

/-- C3: in the live session state, a monitor tick kicks the connection
closed with reason "No keep alive received" and terminates the task exactly
when at least 15 seconds have passed since `last_alive_received`; before
the deadline, the tick neither changes the `closed` flag nor times out. -/
theorem c3_keepalive_deadline (now : Nat) (random : Int) (queue : List Int)
    (c : MonitorClient) (hplay : c.connection_state = ConnState.play) :
    (KEEP_ALIVE_TIMEOUT ≤ now - c.last_alive_received →
      monitorTick now random queue c =
        MonitorOutcome.timedOut { c with closed := true }
          "No keep alive received") ∧
    (now - c.last_alive_received < KEEP_ALIVE_TIMEOUT →
      (outcomeClient (monitorTick now random queue c)).closed = c.closed ∧
      ∀ c' r, monitorTick now random queue c ≠ MonitorOutcome.timedOut c' r) := by
  constructor
  · intro h
    simp [monitorTick, hplay, h, kick]
  · intro h
    have hnot : ¬ KEEP_ALIVE_TIMEOUT ≤ now - c.last_alive_received :=
      Nat.not_le.mpr h
    rcases queue with _ | ⟨idq, restq⟩
    · simp [monitorTick, hplay, hnot, outcomeClient]
    · by_cases hid : idq = random <;>
        simp [monitorTick, hplay, hnot, hid, outcomeClient]

/-- Witness for C3: the fixture live client, silent since instant 0,
is kicked at instant 20. -/
theorem c3_keepalive_deadline_witness :
    monitorTick 20 7 [] cexMonitor =
      MonitorOutcome.timedOut { cexMonitor with closed := true }
        "No keep alive received" :=
  (c3_keepalive_deadline 20 7 [] cexMonitor (by decide)).1 (by decide)

/-- C4 counterexample: on a live, in-deadline tick with no queued reply,
`receiver.recv().await` (main.rs:253) leaves the monitor blocked past the
1-second tick boundary — the tick does not complete with the timestamp
unchanged, contradicting the claimed non-blocking receive. -/
theorem c4_nonblocking_counterexample :
    completesTick (monitorTick 1 7 [] cexMonitor) = false ∧
    monitorTick 1 7 [] cexMonitor = MonitorOutcome.blocked cexMonitor 7 :=
  ⟨rfl, rfl⟩

/-- C4 amended: on a live monitor tick before the deadline, the monitor
sends the fresh challenge id and then awaits one echoed id, blocking until
a reply is available; when a reply is queued, `last_alive_received` is set
to now exactly when the received id equals the id just sent, and is left
unchanged when it differs; when no reply is queued the monitor blocks in
the receive rather than completing the tick. -/
theorem c4_echo_match_amended (now : Nat) (random : Int) (queue : List Int)
    (c : MonitorClient) (hplay : c.connection_state = ConnState.play)
    (hlive : now - c.last_alive_received < KEEP_ALIVE_TIMEOUT) :
    (queue = [] →
      monitorTick now random queue c = MonitorOutcome.blocked c random) ∧
    (∀ idq restq, queue = idq :: restq →
      monitorTick now random queue c =
        MonitorOutcome.ticked
          (if idq = random then { c with last_alive_received := now } else c)
          restq (some random)) := by
  have hnot : ¬ KEEP_ALIVE_TIMEOUT ≤ now - c.last_alive_received :=
    Nat.not_le.mpr hlive
  constructor
  · intro h
    subst h
    simp [monitorTick, hplay, hnot]
  · intro idq restq h
    subst h
    by_cases hid : idq = random <;> simp [monitorTick, hplay, hnot, hid]

/-- Witness for C4 amended: the fixture live client echoing the challenge
7 gets its timestamp refreshed to the tick's instant. -/
theorem c4_echo_match_amended_witness :
    monitorTick 1 7 [7] cexMonitor =
      MonitorOutcome.ticked { cexMonitor with last_alive_received := 1 } []
        (some 7) := by
  have h :=
    (c4_echo_match_amended 1 7 [7] cexMonitor (by decide) (by decide)).2 7 []
      rfl
  simpa using h

/-- Helper for C5: over any run of monitor ticks whose observed connection
states all differ from `Play`, no keep-alive timeout fires and the `closed`
flag is untouched. -/
theorem runMonitor_nonlive (inputs : List TickInput) (c : MonitorClient)
    (h : ∀ i ∈ inputs, i.state ≠ ConnState.play) :
    (runMonitor c inputs).2 = false ∧
    (runMonitor c inputs).1.closed = c.closed := by
  induction inputs generalizing c with
  | nil => exact ⟨rfl, rfl⟩
  | cons i rest ih =>
    have hi : i.state ≠ ConnState.play := h i (List.mem_cons_self i rest)
    have hrest : ∀ j ∈ rest, j.state ≠ ConnState.play :=
      fun j hj => h j (List.mem_cons_of_mem i hj)
    have hstep : runMonitor c (i :: rest) =
        runMonitor
          { c with connection_state := i.state,
                   last_alive_received := i.now } rest := by
      simp [runMonitor, monitorTick, hi]
    rw [hstep]
    exact ⟨(ih _ hrest).1, (ih _ hrest).2⟩

/-- C5: a monitor tick outside the live session state refreshes
`last_alive_received` to now (and changes nothing else), and over any run
of ticks whose observed states are all outside the live phase, the
connection is never closed for keep-alive timeout, no matter how much time
elapses. -/
theorem c5_nonlive_exemption (inputs : List TickInput) (c : MonitorClient)
    (h : ∀ i ∈ inputs, i.state ≠ ConnState.play) :
    (runMonitor c inputs).2 = false ∧
    (runMonitor c inputs).1.closed = c.closed ∧
    ∀ now random queue d, d.connection_state ≠ ConnState.play →
      monitorTick now random queue d =
        MonitorOutcome.ticked { d with last_alive_received := now } queue
          none := by
  refine ⟨(runMonitor_nonlive inputs c h).1, (runMonitor_nonlive inputs c h).2,
    ?_⟩
  intro now random queue d hd
  simp [monitorTick, hd]

/-- Witness for C5: a login-phase tick at instant 1000 (far beyond 15
seconds of silence) does not time out and does not touch `closed`. -/
theorem c5_nonlive_exemption_witness :
    (runMonitor cexMonitor [⟨1000, 3, [], ConnState.login⟩]).2 = false ∧
    (runMonitor cexMonitor [⟨1000, 3, [], ConnState.login⟩]).1.closed =
      cexMonitor.closed :=
  ⟨(c5_nonlive_exemption [⟨1000, 3, [], ConnState.login⟩] cexMonitor
      (by decide)).1,
   (c5_nonlive_exemption [⟨1000, 3, [], ConnState.login⟩] cexMonitor
      (by decide)).2.1⟩

theorem assignedTokens_gt (c k : Nat) :
    ∀ tok ∈ assignedTokens c k, c < tok := by
  induction k generalizing c with
  | zero => intro tok h; cases h
  | succ n ih =>
    intro tok h
    rcases List.mem_cons.mp h with h1 | h2
    · omega
    · have := ih (c + 1) tok h2
      omega

theorem assignedTokens_pairwise (c k : Nat) :
    List.Pairwise (fun a b => a < b) (assignedTokens c k) := by
  induction k generalizing c with
  | zero => exact List.Pairwise.nil
  | succ n ih =>
    refine List.Pairwise.cons ?_ (ih (c + 1))
    intro tok h
    exact assignedTokens_gt (c + 1) n tok h

theorem acceptMany_tokens (K : Nat) (st : ReactorState) :
    (acceptMany K st).2 = assignedTokens st.counter K := by
  induction K generalizing st with
  | zero => rfl
  | succ k ih =>
    rw [acceptMany_succ, acceptOne_token]
    show (st.counter + 1) :: (acceptMany k (acceptOne st).1).2 = _
    rw [ih, acceptOne_counter]
    rfl

/-- C6: across any sequence of `K` accepted connections, the assigned
tokens are exactly counter+1 … counter+K: strictly increasing, pairwise
distinct, and each strictly greater than the reserved listener token; the
counter is seeded above the listener token at startup. -/
theorem c6_token_uniqueness (K : Nat) (st : ReactorState) :
    (acceptMany K st).2 = assignedTokens st.counter K ∧
    List.Pairwise (fun a b => a < b) (acceptMany K st).2 ∧
    (acceptMany K st).2.Nodup ∧
    (∀ tok ∈ (acceptMany K st).2, SERVER < tok) ∧
    SERVER < initState.counter := by
  have htok := acceptMany_tokens K st
  have hpw : List.Pairwise (fun a b => a < b) (acceptMany K st).2 := by
    rw [htok]; exact assignedTokens_pairwise st.counter K
  refine ⟨htok, hpw, hpw.imp (fun h => Nat.ne_of_lt h), ?_, by decide⟩
  intro tok h
  rw [htok] at h
  have := assignedTokens_gt st.counter K tok h
  have hS : SERVER = 0 := rfl
  omega

/-- Witness for C6: three accepts from startup assign tokens 2, 3, 4. -/
theorem c6_token_uniqueness_witness :
    (acceptMany 3 initState).2 = assignedTokens initState.counter 3 ∧
    (acceptMany 3 initState).2 = [2, 3, 4] :=
  ⟨(c6_token_uniqueness 3 initState).1, by decide⟩

theorem acceptDrain_conns (K : Nat) (tail : List AcceptEvent)
    (st : ReactorState) :
    acceptDrain (List.replicate K AcceptEvent.conn ++ tail) st =
      acceptDrain tail (acceptMany K st).1 := by
  induction K generalizing st with
  | zero => rfl
  | succ k ih =>
    rw [List.replicate_succ, List.cons_append]
    show acceptDrain (List.replicate k AcceptEvent.conn ++ tail)
      (acceptOne st).1 = _
    rw [ih, acceptMany_succ]

theorem acceptMany_frame (K : Nat) (st : ReactorState) (u : Nat)
    (hu : u ≤ st.counter) :
    (acceptMany K st).1.clients u = st.clients u ∧
    (acceptMany K st).1.registered u = st.registered u := by
  induction K generalizing st with
  | zero => exact ⟨rfl, rfl⟩
  | succ k ih =>
    have hne : u ≠ st.counter + 1 := by omega
    have hu1 : u ≤ (acceptOne st).1.counter := by
      rw [acceptOne_counter]; omega
    have h := ih (acceptOne st).1 hu1
    constructor
    · rw [acceptMany_succ]
      show (acceptMany k (acceptOne st).1).1.clients u = _
      rw [h.1, acceptOne_clients, fupdate_other _ _ _ _ hne]
    · rw [acceptMany_succ]
      show (acceptMany k (acceptOne st).1).1.registered u = _
      rw [h.2, acceptOne_registered, fupdate_other _ _ _ _ hne]

theorem acceptMany_registers (K : Nat) (st : ReactorState) :
    ∀ i, 1 ≤ i → i ≤ K →
      ((acceptMany K st).1.clients (st.counter + i)).isSome = true ∧
      (acceptMany K st).1.registered (st.counter + i) = true := by
  induction K generalizing st with
  | zero => intro i h1 h2; omega
  | succ k ih =>
    intro i h1 h2
    by_cases hi : i = 1
    · subst hi
      have hu1 : st.counter + 1 ≤ (acceptOne st).1.counter := by
        rw [acceptOne_counter]
      have hfr := acceptMany_frame k (acceptOne st).1 (st.counter + 1) hu1
      rw [acceptMany_succ]
      constructor
      · show ((acceptMany k (acceptOne st).1).1.clients (st.counter + 1)).isSome
          = true
        rw [hfr.1, acceptOne_clients, fupdate_same]
        rfl
      · show (acceptMany k (acceptOne st).1).1.registered (st.counter + 1)
          = true
        rw [hfr.2, acceptOne_registered, fupdate_same]
    · have h1' : 1 ≤ i - 1 := by omega
      have h2' : i - 1 ≤ k := by omega
      have h := ih (acceptOne st).1 (i - 1) h1' h2'
      rw [acceptOne_counter] at h
      have hkey : st.counter + 1 + (i - 1) = st.counter + i := by omega
      rw [hkey] at h
      rw [acceptMany_succ]
      exact h

/-- C8: when `K` pending connections are followed by `WouldBlock`, the
accept-drain loop accepts and registers all `K` of them and returns to
polling normally (`WouldBlock` is expected loop termination, not an
error); any other accept error terminates the reactor fatally. -/
theorem c8_accept_draining (K : Nat) (rest : List AcceptEvent)
    (st : ReactorState) (e : Nat) :
    acceptDrain (List.replicate K AcceptEvent.conn ++
        AcceptEvent.wouldBlock :: rest) st = Except.ok (acceptMany K st).1 ∧
    (∀ i, 1 ≤ i → i ≤ K →
      ((acceptMany K st).1.clients (st.counter + i)).isSome = true ∧
      (acceptMany K st).1.registered (st.counter + i) = true) ∧
    acceptDrain (List.replicate K AcceptEvent.conn ++
        AcceptEvent.fatal e :: rest) st = Except.error e := by
  refine ⟨?_, acceptMany_registers K st, ?_⟩
  · rw [acceptDrain_conns]; rfl
  · rw [acceptDrain_conns]; rfl

/-- Witness for C8: two pending connections from startup are both accepted
and registered under tokens 2 and 3, and the drain then returns to polling
with `Except.ok`. -/
theorem c8_accept_draining_witness :
    acceptDrain (List.replicate 2 AcceptEvent.conn ++
        AcceptEvent.wouldBlock :: []) initState =
      Except.ok (acceptMany 2 initState).1 ∧
    ((acceptMany 2 initState).1.clients (initState.counter + 1)).isSome =
      true ∧
    ((acceptMany 2 initState).1.clients (initState.counter + 2)).isSome =
      true :=
  ⟨(c8_accept_draining 2 [] initState 0).1,
   ((c8_accept_draining 2 [] initState 0).2.1 1 (by decide) (by decide)).1,
   ((c8_accept_draining 2 [] initState 0).2.1 2 (by decide) (by decide)).1⟩

theorem is_valid_plugin_iff (name : String) :
    is_valid_plugin name = true ↔
      ∃ ext, extension name = some ext ∧
        (ext = "so" ∨ ext = "dll" ∨ ext = "dylib" ∨ ext = "plugin") := by
  cases hx : extension name with
  | none => simp [is_valid_plugin, hx]
  | some ext =>
    simp only [is_valid_plugin, hx, Bool.or_eq_true, beq_iff_eq,
      Option.some.injEq]
    constructor
    · intro h
      exact ⟨ext, rfl, by tauto⟩
    · rintro ⟨e, he, h⟩
      subst he
      tauto

/-- C9: a directory entry is attempted as a plugin load exactly when its
name has an extension equal to `so`, `dll`, `dylib` or `plugin`; an entry
with no extension, or an unrecognized one, is never attempted. -/
theorem c9_extension_filtering (entries : List String) (name : String) :
    (name ∈ load_plugins_from_directory entries ↔
      name ∈ entries ∧ ∃ ext, extension name = some ext ∧
        (ext = "so" ∨ ext = "dll" ∨ ext = "dylib" ∨ ext = "plugin")) ∧
    (extension name = none → name ∉ load_plugins_from_directory entries) := by
  have hmem : name ∈ load_plugins_from_directory entries ↔
      name ∈ entries ∧ is_valid_plugin name = true := by
    simp [load_plugins_from_directory, List.mem_filter]
  constructor
  · rw [hmem, is_valid_plugin_iff]
  · intro hnone hin
    rcases (hmem.mp hin).2 with h
    rcases (is_valid_plugin_iff name).mp h with ⟨ext, hext, _⟩
    rw [hnone] at hext
    cases hext

theorem dispatchPlayer_none (pP prP : ClientFlags → ClientFlags) (t : Nat)
    (st : ReactorState) (hp : st.players t = none) :
    dispatchPlayer pP prP t st = st := by
  simp [dispatchPlayer, hp]

theorem dispatchPlayer_closed (pP prP : ClientFlags → ClientFlags) (t : Nat)
    (st : ReactorState) (p : ClientData) (hp : st.players t = some p)
    (hcl : (pP p.flags).closed = true) :
    dispatchPlayer pP prP t st =
      { st with players := fupdate st.players t none
                registered := fupdate st.registered t false } := by
  simp [dispatchPlayer, hp, hcl]

theorem dispatchPlayer_alive (pP prP : ClientFlags → ClientFlags) (t : Nat)
    (st : ReactorState) (p : ClientData) (hp : st.players t = some p)
    (hcl : (pP p.flags).closed = false) :
    dispatchPlayer pP prP t st =
      { st with players := fupdate st.players t (some { p with flags := prP (pP p.flags) }) } := by
  simp [dispatchPlayer, hp, hcl]

theorem dispatchClient_none (pC prC : ClientFlags → ClientFlags) (t : Nat)
    (st : ReactorState) (hc : st.clients t = none) :
    dispatchClient pC prC t st = st := by
  simp [dispatchClient, hc]

theorem dispatchClient_closed (pC prC : ClientFlags → ClientFlags) (t : Nat)
    (st : ReactorState) (c : ClientData) (hc : st.clients t = some c)
    (hcl : (pC c.flags).closed = true) :
    dispatchClient pC prC t st =
      { st with clients := fupdate st.clients t none
                registered := fupdate st.registered t false } := by
  simp [dispatchClient, hc, hcl]

theorem dispatchClient_promote (pC prC : ClientFlags → ClientFlags) (t : Nat)
    (st : ReactorState) (c : ClientData) (hc : st.clients t = some c)
    (hcl : (pC c.flags).closed = false)
    (hmk : (prC (pC c.flags)).make_player = true) :
    dispatchClient pC prC t st =
      { st with clients := fupdate st.clients t none
                players := fupdate st.players c.id
                  (some { c with flags := prC (pC c.flags) }) } := by
  simp [dispatchClient, hc, hcl, hmk]

theorem dispatchClient_stay (pC prC : ClientFlags → ClientFlags) (t : Nat)
    (st : ReactorState) (c : ClientData) (hc : st.clients t = some c)
    (hcl : (pC c.flags).closed = false)
    (hmk : (prC (pC c.flags)).make_player = false) :
    dispatchClient pC prC t st =
      { st with clients := fupdate st.clients t (some { c with flags := prC (pC c.flags) }) } := by
  simp [dispatchClient, hc, hcl, hmk]

/-- Witness for C9 at a concrete directory listing: the shared-library
file is attempted, and arbitrary other files are not. -/
theorem c9_extension_filtering_witness :
    ("mod_a.so" ∈
      load_plugins_from_directory ["mod_a.so", "readme.txt", "noext"] ↔
      "mod_a.so" ∈ (["mod_a.so", "readme.txt", "noext"] : List String) ∧
      ∃ ext, extension "mod_a.so" = some ext ∧
        (ext = "so" ∨ ext = "dll" ∨ ext = "dylib" ∨ ext = "plugin")) ∧
    (extension "mod_a.so" = none →
      "mod_a.so" ∉
        load_plugins_from_directory ["mod_a.so", "readme.txt", "noext"]) :=
  c9_extension_filtering ["mod_a.so", "readme.txt", "noext"] "mod_a.so"

theorem eq_none_of_isSome_false {α : Type} {o : Option α}
    (h : o.isSome = false) : o = none := by
  cases o
  · rfl
  · simp at h

theorem dispatchPlayer_clients (pP prP : ClientFlags → ClientFlags) (t : Nat)
    (st : ReactorState) :
    (dispatchPlayer pP prP t st).clients = st.clients := by
  cases hp : st.players t with
  | none => rw [dispatchPlayer_none _ _ _ _ hp]
  | some p =>
    cases hcl : (pP p.flags).closed with
    | true => rw [dispatchPlayer_closed _ _ _ _ _ hp hcl]
    | false => rw [dispatchPlayer_alive _ _ _ _ _ hp hcl]

theorem dispatchPlayer_counter (pP prP : ClientFlags → ClientFlags) (t : Nat)
    (st : ReactorState) :
    (dispatchPlayer pP prP t st).counter = st.counter := by
  cases hp : st.players t with
  | none => rw [dispatchPlayer_none _ _ _ _ hp]
  | some p =>
    cases hcl : (pP p.flags).closed with
    | true => rw [dispatchPlayer_closed _ _ _ _ _ hp hcl]
    | false => rw [dispatchPlayer_alive _ _ _ _ _ hp hcl]

theorem dispatchPlayer_players_sub (pP prP : ClientFlags → ClientFlags)
    (t : Nat) (st : ReactorState) (u : Nat)
    (h : ((dispatchPlayer pP prP t st).players u).isSome = true) :
    (st.players u).isSome = true := by
  cases hp : st.players t with
  | none => rwa [dispatchPlayer_none _ _ _ _ hp] at h
  | some p =>
    cases hcl : (pP p.flags).closed with
    | true =>
      rw [dispatchPlayer_closed _ _ _ _ _ hp hcl] at h
      by_cases hu : u = t
      · subst hu; simp [fupdate] at h
      · simpa [fupdate, hu] using h
    | false =>
      rw [dispatchPlayer_alive _ _ _ _ _ hp hcl] at h
      by_cases hu : u = t
      · subst hu; rw [hp]; rfl
      · simpa [fupdate, hu] using h

theorem dispatchClient_counter (pC prC : ClientFlags → ClientFlags) (t : Nat)
    (st : ReactorState) :
    (dispatchClient pC prC t st).counter = st.counter := by
  cases hc : st.clients t with
  | none => rw [dispatchClient_none _ _ _ _ hc]
  | some c =>
    cases hcl : (pC c.flags).closed with
    | true => rw [dispatchClient_closed _ _ _ _ _ hc hcl]
    | false =>
      cases hmk : (prC (pC c.flags)).make_player with
      | true => rw [dispatchClient_promote _ _ _ _ _ hc hcl hmk]
      | false => rw [dispatchClient_stay _ _ _ _ _ hc hcl hmk]

theorem dispatchClient_clients_sub (pC prC : ClientFlags → ClientFlags)
    (t : Nat) (st : ReactorState) (u : Nat)
    (h : ((dispatchClient pC prC t st).clients u).isSome = true) :
    (st.clients u).isSome = true := by
  cases hc : st.clients t with
  | none => rwa [dispatchClient_none _ _ _ _ hc] at h
  | some c =>
    cases hcl : (pC c.flags).closed with
    | true =>
      rw [dispatchClient_closed _ _ _ _ _ hc hcl] at h
      by_cases hu : u = t
      · subst hu; simp [fupdate] at h
      · simpa [fupdate, hu] using h
    | false =>
      cases hmk : (prC (pC c.flags)).make_player with
      | true =>
        rw [dispatchClient_promote _ _ _ _ _ hc hcl hmk] at h
        by_cases hu : u = t
        · subst hu; simp [fupdate] at h
        · simpa [fupdate, hu] using h
      | false =>
        rw [dispatchClient_stay _ _ _ _ _ hc hcl hmk] at h
        by_cases hu : u = t
        · subst hu; rw [hc]; rfl
        · simpa [fupdate, hu] using h

theorem dispatchClient_players_gain (pC prC : ClientFlags → ClientFlags)
    (t : Nat) (st : ReactorState) (u : Nat)
    (hid : ∀ v c, st.clients v = some c → c.id = v)
    (h : ((dispatchClient pC prC t st).players u).isSome = true) :
    (st.players u).isSome = true ∨ (u = t ∧ (st.clients u).isSome = true) := by
  cases hc : st.clients t with
  | none => rw [dispatchClient_none _ _ _ _ hc] at h; exact Or.inl h
  | some c =>
    cases hcl : (pC c.flags).closed with
    | true =>
      rw [dispatchClient_closed _ _ _ _ _ hc hcl] at h
      exact Or.inl h
    | false =>
      cases hmk : (prC (pC c.flags)).make_player with
      | true =>
        rw [dispatchClient_promote _ _ _ _ _ hc hcl hmk] at h
        have hcid : c.id = t := hid t c hc
        by_cases hu : u = c.id
        · refine Or.inr ⟨hu.trans hcid, ?_⟩
          rw [hu.trans hcid, hc]; rfl
        · simp only [fupdate] at h
          rw [if_neg hu] at h
          exact Or.inl h
      | false =>
        rw [dispatchClient_stay _ _ _ _ _ hc hcl hmk] at h
        exact Or.inl h

theorem dispatchClient_gain_removes (pC prC : ClientFlags → ClientFlags)
    (t u : Nat) (st : ReactorState)
    (hid : ∀ v c, st.clients v = some c → c.id = v)
    (hnp : st.players u = none)
    (hg : ((dispatchClient pC prC t st).players u).isSome = true) :
    u = t ∧ (dispatchClient pC prC t st).clients u = none := by
  cases hc : st.clients t with
  | none =>
    rw [dispatchClient_none _ _ _ _ hc] at hg
    rw [hnp] at hg; cases hg
  | some c =>
    cases hcl : (pC c.flags).closed with
    | true =>
      rw [dispatchClient_closed _ _ _ _ _ hc hcl] at hg
      simp [hnp] at hg
    | false =>
      cases hmk : (prC (pC c.flags)).make_player with
      | false =>
        rw [dispatchClient_stay _ _ _ _ _ hc hcl hmk] at hg
        simp [hnp] at hg
      | true =>
        rw [dispatchClient_promote _ _ _ _ _ hc hcl hmk] at hg ⊢
        have hcid : c.id = t := hid t c hc
        by_cases hu : u = c.id
        · have hut : u = t := hu.trans hcid
          refine ⟨hut, ?_⟩
          simp [fupdate, hut]
        · simp only [fupdate] at hg
          rw [if_neg hu] at hg
          rw [hnp] at hg; cases hg

theorem Inv_acceptOne (st : ReactorState) (h : Inv st) :
    Inv (acceptOne st).1 := by
  constructor
  · intro u hcu hpu
    rw [acceptOne_clients] at hcu
    rw [acceptOne_players] at hpu
    by_cases hu : u = st.counter + 1
    · subst hu
      have := h.bound _ (Or.inr hpu)
      omega
    · rw [fupdate_other _ _ _ _ hu] at hcu
      exact h.disjoint u hcu hpu
  · intro u c hc
    rw [acceptOne_clients] at hc
    by_cases hu : u = st.counter + 1
    · subst hu
      rw [fupdate_same] at hc
      cases hc
      rfl
    · rw [fupdate_other _ _ _ _ hu] at hc
      exact h.idc u c hc
  · intro u hu
    rw [acceptOne_counter]
    rcases hu with hcu | hpu
    · rw [acceptOne_clients] at hcu
      by_cases hu' : u = st.counter + 1
      · omega
      · rw [fupdate_other _ _ _ _ hu'] at hcu
        have := h.bound u (Or.inl hcu)
        omega
    · rw [acceptOne_players] at hpu
      have := h.bound u (Or.inr hpu)
      omega

theorem Inv_dispatchPlayer (pP prP : ClientFlags → ClientFlags) (t : Nat)
    (st : ReactorState) (h : Inv st) : Inv (dispatchPlayer pP prP t st) := by
  constructor
  · intro u hcu hpu
    rw [dispatchPlayer_clients] at hcu
    exact h.disjoint u hcu (dispatchPlayer_players_sub _ _ _ _ _ hpu)
  · intro u c hc
    rw [dispatchPlayer_clients] at hc
    exact h.idc u c hc
  · intro u hu
    rw [dispatchPlayer_counter]
    rcases hu with hcu | hpu
    · rw [dispatchPlayer_clients] at hcu
      exact h.bound u (Or.inl hcu)
    · exact h.bound u (Or.inr (dispatchPlayer_players_sub _ _ _ _ _ hpu))

theorem Inv_dispatchClient (pC prC : ClientFlags → ClientFlags) (t : Nat)
    (st : ReactorState) (h : Inv st) : Inv (dispatchClient pC prC t st) := by
  constructor
  · intro u hcu hpu
    have hcu' := dispatchClient_clients_sub _ _ _ _ _ hcu
    rcases dispatchClient_players_gain _ _ _ _ _ h.idc hpu with hpu' | ⟨hut, _⟩
    · exact h.disjoint u hcu' hpu'
    · subst hut
      have hpu0 : st.players u = none := by
        cases hx : st.players u with
        | none => rfl
        | some p => exact (h.disjoint u hcu' (by rw [hx]; rfl)).elim
      have := dispatchClient_gain_removes pC prC u u st h.idc hpu0 hpu
      rw [this.2] at hcu
      cases hcu
  · intro u c hc
    have : (st.clients u).isSome = true :=
      dispatchClient_clients_sub _ _ _ _ _ (by rw [hc]; rfl)
    -- identify the stored client by case analysis on the branch taken
    cases hc0 : st.clients t with
    | none =>
      rw [dispatchClient_none _ _ _ _ hc0] at hc
      exact h.idc u c hc
    | some c0 =>
      cases hcl : (pC c0.flags).closed with
      | true =>
        rw [dispatchClient_closed _ _ _ _ _ hc0 hcl] at hc
        have hc2 : fupdate st.clients t none u = some c := hc
        by_cases hu : u = t
        · subst hu; rw [fupdate_same] at hc2; cases hc2
        · rw [fupdate_other _ _ _ _ hu] at hc2; exact h.idc u c hc2
      | false =>
        cases hmk : (prC (pC c0.flags)).make_player with
        | true =>
          rw [dispatchClient_promote _ _ _ _ _ hc0 hcl hmk] at hc
          have hc2 : fupdate st.clients t none u = some c := hc
          by_cases hu : u = t
          · subst hu; rw [fupdate_same] at hc2; cases hc2
          · rw [fupdate_other _ _ _ _ hu] at hc2; exact h.idc u c hc2
        | false =>
          rw [dispatchClient_stay _ _ _ _ _ hc0 hcl hmk] at hc
          have hc2 :
              fupdate st.clients t (some ⟨c0.id, prC (pC c0.flags)⟩) u =
                some c := hc
          by_cases hu : u = t
          · subst hu
            rw [fupdate_same] at hc2
            cases hc2
            exact h.idc _ c0 hc0
          · rw [fupdate_other _ _ _ _ hu] at hc2; exact h.idc u c hc2
  · intro u hu
    rw [dispatchClient_counter]
    rcases hu with hcu | hpu
    · exact h.bound u (Or.inl (dispatchClient_clients_sub _ _ _ _ _ hcu))
    · rcases dispatchClient_players_gain _ _ _ _ _ h.idc hpu with hpu' | ⟨_, hcs⟩
      · exact h.bound u (Or.inr hpu')
      · exact h.bound u (Or.inl hcs)

theorem Inv_applyStep (s : Step) (st : ReactorState) (h : Inv st) :
    Inv (applyStep s st) := by
  cases s with
  | accept => exact Inv_acceptOne st h
  | dispatch pP prP pC prC t =>
    exact Inv_dispatchClient pC prC t _ (Inv_dispatchPlayer pP prP t st h)

theorem Inv_run (steps : List Step) :
    ∀ st, Inv st → Inv (run steps st) := by
  induction steps with
  | nil => intro st h; exact h
  | cons s rest ih => intro st h; exact ih _ (Inv_applyStep s st h)

theorem Inv_init : Inv initState := by
  constructor
  · intro u hcu _
    simp [initState] at hcu
  · intro u c hc
    simp [initState] at hc
  · intro u hu
    rcases hu with hcu | hpu
    · simp [initState] at hcu
    · simp [initState] at hpu

theorem applyStep_counter_mono (s : Step) (st : ReactorState) :
    st.counter ≤ (applyStep s st).counter := by
  cases s with
  | accept =>
    show st.counter ≤ (acceptOne st).1.counter
    rw [acceptOne_counter]
    omega
  | dispatch pP prP pC prC t =>
    show st.counter ≤
      (dispatchClient pC prC t (dispatchPlayer pP prP t st)).counter
    rw [dispatchClient_counter, dispatchPlayer_counter]

theorem applyStep_clients_new (s : Step) (st : ReactorState) (u : Nat)
    (h : ((applyStep s st).clients u).isSome = true) :
    (st.clients u).isSome = true ∨ u = st.counter + 1 := by
  cases s with
  | accept =>
    have h2 : (fupdate st.clients (st.counter + 1)
        (some ⟨st.counter + 1, ⟨false, false⟩⟩) u).isSome = true := h
    by_cases hu : u = st.counter + 1
    · exact Or.inr hu
    · rw [fupdate_other _ _ _ _ hu] at h2
      exact Or.inl h2
  | dispatch pP prP pC prC t =>
    have h2 := dispatchClient_clients_sub pC prC t _ u h
    rw [dispatchPlayer_clients] at h2
    exact Or.inl h2

theorem applyStep_players_gain (s : Step) (st : ReactorState) (u : Nat)
    (hid : ∀ v c, st.clients v = some c → c.id = v)
    (h : ((applyStep s st).players u).isSome = true) :
    (st.players u).isSome = true ∨ (st.clients u).isSome = true := by
  cases s with
  | accept =>
    have h2 : (st.players u).isSome = true := h
    exact Or.inl h2
  | dispatch pP prP pC prC t =>
    have hid' : ∀ v c, (dispatchPlayer pP prP t st).clients v = some c →
        c.id = v := by
      rw [dispatchPlayer_clients]
      exact hid
    rcases dispatchClient_players_gain pC prC t _ u hid' h with h3 | ⟨_, h3⟩
    · exact Or.inl (dispatchPlayer_players_sub _ _ _ _ _ h3)
    · rw [dispatchPlayer_clients] at h3
      exact Or.inr h3

theorem applyStep_clients_none (s : Step) (st : ReactorState) (t : Nat)
    (hnc : st.clients t = none) (hle : t ≤ st.counter) :
    (applyStep s st).clients t = none := by
  cases hx : (applyStep s st).clients t with
  | none => rfl
  | some c =>
    have hs : ((applyStep s st).clients t).isSome = true := by rw [hx]; rfl
    rcases applyStep_clients_new s st t hs with h1 | h2
    · rw [hnc] at h1; cases h1
    · omega

theorem not_client_forever (steps : List Step) (t : Nat) :
    ∀ st, Inv st → st.clients t = none → t ≤ st.counter →
      (run steps st).clients t = none ∧ t ≤ (run steps st).counter := by
  induction steps with
  | nil => intro st _ hnc hle; exact ⟨hnc, hle⟩
  | cons s rest ih =>
    intro st h hnc hle
    exact ih (applyStep s st) (Inv_applyStep s st h)
      (applyStep_clients_none s st t hnc hle)
      (le_trans hle (applyStep_counter_mono s st))

theorem promotionsFor_zero (t : Nat) (steps : List Step) :
    ∀ st, Inv st → st.clients t = none → t ≤ st.counter →
      promotionsFor t steps st = 0 := by
  induction steps with
  | nil => intro st _ _ _; rfl
  | cons s rest ih =>
    intro st h hnc hle
    have hpr : promotes s st t = false := by
      unfold promotes
      cases hb : (st.players t).isSome with
      | true => simp [hb]
      | false =>
        have hafter : ((applyStep s st).players t).isSome = false := by
          cases hx : ((applyStep s st).players t).isSome with
          | false => rfl
          | true =>
            rcases applyStep_players_gain s st t h.idc hx with h1 | h2
            · rw [hb] at h1; cases h1
            · rw [hnc] at h2; cases h2
        simp [hb, hafter]
    have h0 := ih (applyStep s st) (Inv_applyStep s st h)
      (applyStep_clients_none s st t hnc hle)
      (le_trans hle (applyStep_counter_mono s st))
    simp [promotionsFor, hpr, h0]

theorem promotionsFor_le_one (t : Nat) (steps : List Step) :
    ∀ st, Inv st → promotionsFor t steps st ≤ 1 := by
  induction steps with
  | nil => intro st _; simp [promotionsFor]
  | cons s rest ih =>
    intro st h
    cases hpr : promotes s st t with
    | false =>
      simpa [promotionsFor, hpr] using
        ih (applyStep s st) (Inv_applyStep s st h)
    | true =>
      have hand := hpr
      unfold promotes at hand
      rw [Bool.and_eq_true] at hand
      have h1 : (!(st.players t).isSome) = true := hand.1
      have hg : ((applyStep s st).players t).isSome = true := hand.2
      have hnp : st.players t = none := by
        refine eq_none_of_isSome_false ?_
        cases hx : (st.players t).isSome with
        | false => rfl
        | true => rw [hx] at h1; cases h1
      have hafter : (applyStep s st).clients t = none ∧
          t ≤ (applyStep s st).counter := by
        cases s with
        | accept =>
          have hg2 : (st.players t).isSome = true := hg
          rw [hnp] at hg2; cases hg2
        | dispatch pP prP pC prC t' =>
          have hnp' : (dispatchPlayer pP prP t' st).players t = none := by
            cases hx : (dispatchPlayer pP prP t' st).players t with
            | none => rfl
            | some p =>
              have hs : ((dispatchPlayer pP prP t' st).players t).isSome =
                  true := by rw [hx]; rfl
              have := dispatchPlayer_players_sub pP prP t' st t hs
              rw [hnp] at this; cases this
          have hid' : ∀ v c,
              (dispatchPlayer pP prP t' st).clients v = some c → c.id = v := by
            rw [dispatchPlayer_clients]
            exact h.idc
          have hgr := dispatchClient_gain_removes pC prC t' t
            (dispatchPlayer pP prP t' st) hid' hnp' hg
          refine ⟨hgr.2, ?_⟩
          rcases dispatchClient_players_gain pC prC t' _ t hid' hg with
            hx | ⟨_, hx⟩
          · rw [hnp'] at hx; cases hx
          · rw [dispatchPlayer_clients] at hx
            exact le_trans (h.bound t (Or.inl hx))
              (applyStep_counter_mono (Step.dispatch pP prP pC prC t') st)
      have hrest := promotionsFor_zero t rest (applyStep s st)
        (Inv_applyStep s st h) hafter.1 hafter.2
      simp [promotionsFor, hpr, hrest]

theorem run_append (pre post : List Step) :
    ∀ st, run (pre ++ post) st = run post (run pre st) := by
  induction pre with
  | nil => intro st; rfl
  | cons s r ih => intro st; exact ih (applyStep s st)

/-- C7: at every tick boundary reachable from startup, the key sets of
`clients` and `players` are disjoint; along any run, a given token is
promoted into `players` at most once; and once a token is in `players` at
some boundary, it is never found in `clients` at any later boundary. -/
theorem c7_registry_disjointness (pre post : List Step) (t : Nat) :
    (∀ u, ¬(((run (pre ++ post) initState).clients u).isSome = true ∧
      ((run (pre ++ post) initState).players u).isSome = true)) ∧
    promotionsFor t (pre ++ post) initState ≤ 1 ∧
    (((run pre initState).players t).isSome = true →
      (run (pre ++ post) initState).clients t = none) := by
  have hinv0 : Inv initState := Inv_init
  refine ⟨?_, promotionsFor_le_one t (pre ++ post) initState hinv0, ?_⟩
  · intro u hu
    exact (Inv_run (pre ++ post) initState hinv0).disjoint u hu.1 hu.2
  · intro hp
    have hpreInv : Inv (run pre initState) := Inv_run pre initState hinv0
    have hnc : (run pre initState).clients t = none := by
      cases hx : (run pre initState).clients t with
      | none => rfl
      | some c => exact (hpreInv.disjoint t (by rw [hx]; rfl) hp).elim
    have hle : t ≤ (run pre initState).counter := hpreInv.bound t (Or.inr hp)
    rw [run_append]
    exact (not_client_forever post t (run pre initState) hpreInv hnc hle).1

/-- Witness for C7 at a concrete run: one accepted connection from
startup. -/
theorem c7_registry_disjointness_witness :
    (∀ u, ¬(((run ([Step.accept] ++ []) initState).clients u).isSome = true ∧
      ((run ([Step.accept] ++ []) initState).players u).isSome = true)) ∧
    promotionsFor 2 ([Step.accept] ++ []) initState ≤ 1 ∧
    (((run [Step.accept] initState).players 2).isSome = true →
      (run ([Step.accept] ++ []) initState).clients 2 = none) :=
  c7_registry_disjointness [Step.accept] [] 2

end Pumpkin
